import Mathlib

/-!
Verification development for the SEO-content core of the Kode repository:
the retrying fetcher, the HTML extractor, the pattern analyzers and the
SERP pipeline orchestrator, shallowly embedded from
`src/tools/ContentCrawlerTool/ContentCrawlerTool.tsx`,
`src/tools/SerpAnalyzerTool/SerpAnalyzerTool.tsx` and
`src/tools/ContentOutlineGeneratorTool/ContentOutlineGeneratorTool.tsx`
(the repository ships two near-identical copies of the crawler and the
analyzer; where the copies agree the embedding is shared and where they
differ the difference is noted).

JavaScript strings are modelled as Lean `String` (character based; the
sources only ever handle them character by character, and `.length` of a
JavaScript string equals the character count on the BMP/ASCII data these
tools process).  JavaScript `number` results that are always integral are
modelled as `Nat`/`Int`; the two places where the source can produce `NaN`
(a `0/0` mean over an empty list) are modelled as `Option` with `none`
standing for `NaN`.
-/

namespace Kode

/-! ### JavaScript string primitives -/

/-- Character-list version of `needle.isPrefixOf hay`. -/
def startsWithL : List Char → List Char → Bool
  | [], _ => true
  | _ :: _, [] => false
  | a :: as, b :: bs => a = b && startsWithL as bs

/-- Character-list substring occurrence test. -/
def containsL (needle : List Char) : List Char → Bool
  | [] => startsWithL needle []
  | c :: rest => startsWithL needle (c :: rest) || containsL needle rest

/-- JavaScript `hay.includes(needle)`. -/
def jsIncludes (hay needle : String) : Bool :=
  containsL needle.data hay.data

/-- JavaScript `s.toLowerCase()` (per-character lowering; the sources only
lower-case ASCII text). -/
def lowerStr (s : String) : String :=
  ⟨s.data.map Char.toLower⟩

/-- JavaScript `s.trim()`: drop whitespace from both ends. -/
def trimStr (s : String) : String :=
  ⟨((s.data.dropWhile Char.isWhitespace).reverse.dropWhile Char.isWhitespace).reverse⟩

/-- Split a character list at every character satisfying `p`, keeping empty
chunks (the JavaScript `String.prototype.split` with a single-character
separator). -/
def splitChunks (p : Char → Bool) : List Char → List (List Char)
  | [] => [[]]
  | c :: rest =>
    if p c then [] :: splitChunks p rest
    else
      match splitChunks p rest with
      | [] => [[c]]
      | w :: ws => (c :: w) :: ws

/-- JavaScript `s.split(sep)` for a one-character separator `sep`. -/
def jsSplitChar (sep : Char) (s : String) : List String :=
  (splitChunks (· = sep) s.data).map List.asString

/-- The non-empty whitespace-separated words of `s`: the JavaScript idiom
`s.split(/\s+/).filter(w => w.length > 0)` used throughout the sources
(splitting on every whitespace character and dropping empty tokens yields
exactly the splitting on whitespace runs). -/
def wordsOf (s : String) : List String :=
  ((splitChunks Char.isWhitespace s.data).map List.asString).filter (· ≠ "")

/-- JavaScript `arr.join(sep)`. -/
def joinWith (sep : String) : List String → String
  | [] => ""
  | [s] => s
  | s :: rest => s ++ sep ++ joinWith sep rest

/-- JavaScript `Math.round(sum / n)` for natural `sum` and positive natural
`n`, computed exactly: `Math.round x = ⌊x + 1/2⌋`, and for the rational
`sum / n` this floor equals `(2 * sum + n) / (2 * n)` in natural division. -/
def jsRoundDiv (sum n : Nat) : Nat :=
  (2 * sum + n) / (2 * n)

/-! ### JavaScript plain-object counting maps

The sources accumulate frequencies in plain objects
(`counts[k] = (counts[k] || 0) + 1`) and then enumerate them with
`Object.entries` / `Object.keys`.  A plain object with string keys
enumerates integer-like keys (canonical decimal representations of
integers below `2^32 - 1`) first, in ascending numeric order, and all
remaining keys in insertion order. -/

/-- Increment the count of `s` in an insertion-ordered association list. -/
def bumpCount (s : String) : List (String × Nat) → List (String × Nat)
  | [] => [(s, 1)]
  | (t, c) :: rest => if t = s then (t, c + 1) :: rest else (t, c) :: bumpCount s rest

/-- Accumulate the counts of every element of the list, left to right. -/
def buildCountsAux : List String → List (String × Nat) → List (String × Nat)
  | [], acc => acc
  | s :: rest, acc => buildCountsAux rest (bumpCount s acc)

/-- The frequency table of a list of strings in first-occurrence order:
the JavaScript `forEach` of `counts[k] = (counts[k] || 0) + 1` over the
list, starting from an empty object. -/
def buildCounts (l : List String) : List (String × Nat) :=
  buildCountsAux l []

/-- Whether a string is a canonical array-index key of a JavaScript object:
a non-empty digit string with no leading zero (except `"0"` itself) whose
value is below `2^32 - 1`. -/
def isArrayIndexStr (s : String) : Bool :=
  s.data ≠ [] && s.data.all Char.isDigit &&
    (s = "0" || s.data.headD '0' ≠ '0') && s.toNat?.getD 0 < 4294967295

/-- Insert an entry into a list sorted ascending by the numeric value of the
key (keys are distinct, so ties do not arise). -/
def insertByKeyAsc (a : String × Nat) : List (String × Nat) → List (String × Nat)
  | [] => [a]
  | b :: rest =>
    if a.1.toNat?.getD 0 < b.1.toNat?.getD 0 then a :: b :: rest
    else b :: insertByKeyAsc a rest

/-- Sort entries ascending by the numeric value of their key. -/
def sortByKeyAsc : List (String × Nat) → List (String × Nat)
  | [] => []
  | a :: rest => insertByKeyAsc a (sortByKeyAsc rest)

/-- JavaScript `Object.entries` of a counting object whose insertion order
was `l`: integer-like keys first in ascending numeric order, then the other
keys in insertion order. -/
def jsObjectEntries (l : List (String × Nat)) : List (String × Nat) :=
  sortByKeyAsc (l.filter fun p => isArrayIndexStr p.1) ++
    l.filter fun p => !isArrayIndexStr p.1

/-- Stable insertion of an entry into a list sorted descending by count:
the entry moves ahead only of strictly smaller counts, so ties keep their
existing order, as with the (stable) JavaScript
`sort((a, b) => b[1] - a[1])`. -/
def insertByCountDesc (a : String × Nat) : List (String × Nat) → List (String × Nat)
  | [] => [a]
  | b :: rest => if b.2 ≤ a.2 then a :: b :: rest else b :: insertByCountDesc a rest

/-- Stable sort of entries descending by count. -/
def sortByCountDesc : List (String × Nat) → List (String × Nat)
  | [] => []
  | a :: rest => insertByCountDesc a (sortByCountDesc rest)

/-! ### Retrying fetcher

`fetchWithRetry` from `ContentCrawlerTool` (both copies are identical up to
the inter-attempt delay, 1 s in one copy and 10 s in the other; wall-clock
time is not modelled).  The network is modelled as a function from the
attempt index to what `fetch` would produce if it actually runs, and the
caller-supplied `AbortSignal` as a function from the attempt index to
whether the signal is observed aborted at that attempt.  Per the WHATWG
fetch standard (implemented by undici), a `fetch` whose signal is already
aborted rejects immediately with an `AbortError` and performs no network
call; this is the only place the signal is consulted by the source. -/

/-- What `fetch(url, …)` yields on one attempt if it actually runs: a
response (status, statusText, body text) or a thrown network error. -/
inductive NetResp where
  | resp (status : Nat) (statusText : String) (body : String)
  | exn (msg : String)
deriving DecidableEq, Repr

/-- The error recorded in `lastError`. -/
inductive FetchErr where
  | http (status : Nat) (statusText : String)
  | net (msg : String)
  | abortError
deriving DecidableEq, Repr

/-- The overall outcome of `fetchWithRetry`. -/
inductive FetchResult where
  | success (body : String) (status : Nat)
  | cancelled
  | failure (e : FetchErr)
deriving DecidableEq, Repr

/-- One pass of the `for (attempt = 0; attempt <= maxRetries; attempt++)`
loop of `fetchWithRetry`, returning the outcome together with the number of
network calls actually issued.  `fuel` is `maxRetries + 1 - attempt`; the
fuel-0 case is the `throw lastError || new Error('Failed to fetch URL')`
after the loop.  Within an iteration: an aborted signal makes `fetch`
reject without a network call and the `catch` block turns it into the
`'Crawl cancelled'` error; an `ok` (2xx) response returns the body; a
non-2xx response records `HTTP status: statusText` as `lastError` and, when
the status is in `[400, 500)`, throws it — a throw the iteration's own
`catch` block then handles exactly like a network error (rethrow only when
`attempt === maxRetries`). -/
def fetchGo (net : Nat → NetResp) (aborted : Nat → Bool) (maxRetries : Nat) :
    Nat → Nat → Option FetchErr → Nat → FetchResult × Nat
  | 0, _, lastError, calls =>
    (.failure (lastError.getD (.net "Failed to fetch URL")), calls)
  | fuel + 1, attempt, _, calls =>
    if aborted attempt then
      (.cancelled, calls)
    else
      match net attempt with
      | .resp status statusText body =>
        if 200 ≤ status ∧ status < 300 then
          (.success body status, calls + 1)
        else if 400 ≤ status ∧ status < 500 then
          if attempt = maxRetries then (.failure (.http status statusText), calls + 1)
          else fetchGo net aborted maxRetries fuel (attempt + 1)
            (some (.http status statusText)) (calls + 1)
        else
          fetchGo net aborted maxRetries fuel (attempt + 1)
            (some (.http status statusText)) (calls + 1)
      | .exn msg =>
        if attempt = maxRetries then (.failure (.net msg), calls + 1)
        else fetchGo net aborted maxRetries fuel (attempt + 1)
          (some (.net msg)) (calls + 1)

/-- `fetchWithRetry(url, maxRetries, signal)`: run the attempt loop from
attempt 0 with no recorded error and no network calls yet. -/
def fetchWithRetry (net : Nat → NetResp) (aborted : Nat → Bool)
    (maxRetries : Nat) : FetchResult × Nat :=
  fetchGo net aborted maxRetries (maxRetries + 1) 0 none 0

/-! ### HTML model

The sources parse markup with `cheerio` (htmlparser2).  The library is
modelled here for well-formed markup: a tokenizer splitting tag tokens from
text, a forgiving tree builder (stray close tags pop one level, unclosed
elements are closed at end of input), and document-order traversals.  Tag
names are lower-cased and attributes are ignored, as htmlparser2 does in
html mode.  Every claim that depends on this model is settled by evaluating
it on concrete well-formed markup, where it agrees with the library. -/

/-- A markup token: an opening tag, a closing tag, or a text run. -/
inductive Tok where
  | openTag (tag : String)
  | closeTag (tag : String)
  | text (s : String)
deriving DecidableEq, Repr

/-- Split a character list at the first character satisfying `p`, dropping
that character. -/
def takeUntil (p : Char → Bool) : List Char → List Char × List Char
  | [] => ([], [])
  | c :: rest =>
    if p c then ([], rest)
    else
      let (pre, post) := takeUntil p rest
      (c :: pre, post)

/-- The tag name of the raw contents of a `<…>` pair: the characters up to
the first space (attributes are dropped), lower-cased. -/
def tagNameOf (raw : List Char) : String :=
  lowerStr ⟨raw.takeWhile (· ≠ ' ')⟩

/-- Tokenize markup.  The fuel only bounds the recursion depth; one unit is
spent per token and per character, so any fuel of at least the input length
plus one gives the full tokenization. -/
def tokenizeAux : Nat → List Char → List Tok
  | 0, _ => []
  | _ + 1, [] => []
  | fuel + 1, '<' :: rest =>
    match rest with
    | '/' :: rest2 =>
      let (raw, rest3) := takeUntil (· = '>') rest2
      .closeTag (tagNameOf raw) :: tokenizeAux fuel rest3
    | _ =>
      let (raw, rest3) := takeUntil (· = '>') rest
      .openTag (tagNameOf raw) :: tokenizeAux fuel rest3
  | fuel + 1, c :: rest =>
    let (txt, post) := takeUntil (· = '<') (c :: rest)
    match post with
    | [] => [.text ⟨txt⟩]
    | post => .text ⟨txt⟩ :: tokenizeAux fuel ('<' :: post)

/-- Tokenize a markup string with sufficient fuel. -/
def tokenize (html : String) : List Tok :=
  tokenizeAux (html.length + 1) html.data

/-- A parsed node: an element with children, or a text node. -/
inductive HtmlNode where
  | elem (tag : String) (children : List HtmlNode)
  | text (s : String)

/-- Close every still-open element at end of input. -/
def unwind : List (String × List HtmlNode) → List HtmlNode → List HtmlNode
  | [], acc => acc
  | (t, siblings) :: stack, acc => unwind stack (siblings ++ [.elem t acc])

/-- Build the node forest from the token stream with a stack of open
elements: an open tag pushes, a close tag pops one level (stray close tags
with an empty stack are dropped). -/
def buildNodes : List Tok → List (String × List HtmlNode) → List HtmlNode → List HtmlNode
  | [], stack, acc => unwind stack acc
  | .text s :: rest, stack, acc => buildNodes rest stack (acc ++ [.text s])
  | .openTag t :: rest, stack, acc => buildNodes rest ((t, acc) :: stack) []
  | .closeTag _ :: rest, [], acc => buildNodes rest [] acc
  | .closeTag _ :: rest, (t, siblings) :: stack, acc =>
    buildNodes rest stack (siblings ++ [.elem t acc])

/-- `cheerio.load(html)`: the parsed forest of the markup. -/
def parseHtml (html : String) : List HtmlNode :=
  buildNodes (tokenize html) [] []

/-- Remove every element whose tag is in `tags`, everywhere in the forest:
`$('script').remove()` and friends.  Fuel-indexed (one unit per recursive
call); any fuel above the node count of the forest is sufficient. -/
def removeTags (tags : List String) : Nat → List HtmlNode → List HtmlNode
  | 0, _ => []
  | _ + 1, [] => []
  | fuel + 1, .text s :: rest => .text s :: removeTags tags fuel rest
  | fuel + 1, .elem t cs :: rest =>
    if t ∈ tags then removeTags tags fuel rest
    else .elem t (removeTags tags fuel cs) :: removeTags tags fuel rest

/-- Concatenation of every text node of the forest in document order with
no separators: `$.text()` (and, applied to one element's children,
`$(el).text()`). -/
def nodesText : Nat → List HtmlNode → String
  | 0, _ => ""
  | _ + 1, [] => ""
  | fuel + 1, .text s :: rest => s ++ nodesText fuel rest
  | fuel + 1, .elem _ cs :: rest => nodesText fuel cs ++ nodesText fuel rest

/-- The number of elements with the given tag anywhere in the forest:
`$('tag').length`. -/
def countTag (tag : String) : Nat → List HtmlNode → Nat
  | 0, _ => 0
  | _ + 1, [] => 0
  | fuel + 1, .text _ :: rest => countTag tag fuel rest
  | fuel + 1, .elem t cs :: rest =>
    (if t = tag then 1 else 0) + countTag tag fuel cs + countTag tag fuel rest

/-- The subtree texts of every element with the given tag, in document
order (an element before its descendants): the `$('tag').each` traversal
collecting `$(el).text()`. -/
def collectTagTexts (tag : String) (textFuel : Nat) : Nat → List HtmlNode → List String
  | 0, _ => []
  | _ + 1, [] => []
  | fuel + 1, .text _ :: rest => collectTagTexts tag textFuel fuel rest
  | fuel + 1, .elem t cs :: rest =>
    (if t = tag then [nodesText textFuel cs] else []) ++
      collectTagTexts tag textFuel fuel cs ++ collectTagTexts tag textFuel fuel rest

/-- Tag counts extracted by the crawler. -/
structure TagCounts where
  h1 : Nat
  h2 : Nat
  span : Nat
  div : Nat
  p : Nat
deriving DecidableEq, Repr

/-- Result of `extractContent`. -/
structure ExtractedContent where
  content : String
  tagCounts : Option TagCounts
deriving DecidableEq, Repr

/-- Fuel that is always sufficient for traversals of the parse of `html`:
the forest has no more nodes than the markup has characters. -/
def docFuel (html : String) : Nat :=
  html.length + 1

/-- `extractContent(html, extractTags)` of `ContentCrawlerTool`: load the
markup, remove `script`/`style`/`noscript`, flatten the remaining text
nodes, normalize whitespace (split on runs, drop empties, rejoin with
single spaces), and count `h1`/`h2`/`span`/`div`/`p` elements of the
stripped document when requested. -/
def extractContent (html : String) (extractTags : Bool) : ExtractedContent :=
  let fuel := docFuel html
  let doc := removeTags ["script", "style", "noscript"] fuel (parseHtml html)
  let textContent := nodesText fuel doc
  let cleanedContent := trimStr (joinWith " " (wordsOf textContent))
  let tagCounts :=
    if extractTags then
      some { h1 := countTag "h1" fuel doc, h2 := countTag "h2" fuel doc
             span := countTag "span" fuel doc, div := countTag "div" fuel doc
             p := countTag "p" fuel doc }
    else none
  { content := cleanedContent, tagCounts := tagCounts }

/-- Per-document heading structure. -/
structure HeadingStructure where
  h1 : List String
  h2 : List String
  h3 : List String
deriving DecidableEq, Repr

/-- `extractHeadings(html)` of `SerpAnalyzerTool`: for each of `h1`, `h2`,
`h3`, walk the elements in document order, trim each element's text and
keep the non-empty ones. -/
def extractHeadings (html : String) : HeadingStructure :=
  let fuel := docFuel html
  let doc := parseHtml html
  let grab := fun tag =>
    ((collectTagTexts tag fuel fuel doc).map trimStr).filter (· ≠ "")
  { h1 := grab "h1", h2 := grab "h2", h3 := grab "h3" }

/-! ### Crawler result and `ContentCrawlerTool.call` -/

/-- The crawler's result record. -/
structure CrawlResult where
  content : String
  tagCounts : Option TagCounts
  url : String
  statusCode : Nat
  contentLength : Nat
  success : Bool
deriving DecidableEq, Repr

/-- `ContentCrawlerTool.call`: fetch with retries, extract, and yield a
`CrawlResult`; on any error yield the zeroed failure record instead, except
that an observed cancellation is rethrown (`none`). -/
def contentCrawlerCall (net : Nat → NetResp) (aborted : Nat → Bool)
    (maxRetries : Nat) (url : String) (extractTags : Bool) : Option CrawlResult :=
  match (fetchWithRetry net aborted maxRetries).1 with
  | .success html status =>
    let e := extractContent html extractTags
    some { content := e.content, tagCounts := e.tagCounts, url := url
           statusCode := status, contentLength := e.content.length, success := true }
  | .cancelled => none
  | .failure _ =>
    some { content := "", tagCounts := none, url := url
           statusCode := 0, contentLength := 0, success := false }

/-! ### Pattern analyzers

Shared verbatim between the two copies of `SerpAnalyzerTool`. -/

/-- One externally supplied search result. -/
structure SearchResult where
  title : String
  link : String
  snippet : Option String
  position : Nat
deriving DecidableEq, Repr

/-- The four intent categories. -/
inductive IntentType where
  | informational
  | transactional
  | navigational
  | commercial
deriving DecidableEq, Repr

/-- The classified search intent. -/
structure SearchIntent where
  type : IntentType
  confidence : Nat
  indicators : List String
deriving DecidableEq, Repr

/-- The transactional vocabulary. -/
def transactionalKeywords : List String :=
  ["buy", "purchase", "order", "shop", "price", "cost", "deal", "discount", "sale"]

/-- The navigational vocabulary. -/
def navigationalPatterns : List String :=
  ["official", "login", "sign in", "homepage"]

/-- The commercial vocabulary. -/
def commercialKeywords : List String :=
  ["best", "top", "review", "compare", "vs", "comparison", "alternative"]

/-- The informational vocabulary. -/
def informationalKeywords : List String :=
  ["what", "how", "why", "when", "guide", "tutorial", "learn", "understand"]

/-- The concatenated lower-cased titles and snippets:
`results.map(r => title + ' ' + (snippet || '')).join(' ').toLowerCase()`. -/
def combinedTextOf (results : List SearchResult) : String :=
  lowerStr (joinWith " " (results.map fun r => r.title ++ " " ++ r.snippet.getD ""))

/-- The number of vocabulary entries occurring in the text:
`vocab.filter(k => text.includes(k)).length`. -/
def hitCount (vocab : List String) (text : String) : Nat :=
  (vocab.filter fun k => jsIncludes text k).length

/-- `analyzeSearchIntent(results, keyword)`: starting from
`informational` with no indicators, each category in the order
transactional → navigational → commercial → informational overwrites the
type and appends its fixed indicator when triggered (a hit count of at
least 2; navigational is also triggered by the raw keyword containing
`.com` or `www`).  Confidence is ten times the sum of the four hit counts,
capped at 90. -/
def analyzeSearchIntent (results : List SearchResult) (keyword : String) : SearchIntent :=
  let combinedText := combinedTextOf results
  let transactionalCount := hitCount transactionalKeywords combinedText
  let st0 : IntentType × List String := (.informational, [])
  let st1 :=
    if transactionalCount ≥ 2 then
      (IntentType.transactional, st0.2 ++ ["Contains transactional keywords"])
    else st0
  let navigationalCount := hitCount navigationalPatterns combinedText
  let st2 :=
    if navigationalCount ≥ 2 || jsIncludes keyword ".com" || jsIncludes keyword "www" then
      (IntentType.navigational, st1.2 ++ ["User searching for specific website"])
    else st1
  let commercialCount := hitCount commercialKeywords combinedText
  let st3 :=
    if commercialCount ≥ 2 then
      (IntentType.commercial, st2.2 ++ ["User comparing products/services"])
    else st2
  let informationalCount := hitCount informationalKeywords combinedText
  let st4 :=
    if informationalCount ≥ 2 then
      (IntentType.informational, st3.2 ++ ["User seeking information"])
    else st3
  let confidence :=
    min ((transactionalCount + navigationalCount + commercialCount + informationalCount) * 10) 90
  { type := st4.1, confidence := confidence, indicators := st4.2 }

/-- `new URL(url).pathname`, modelled from the WHATWG URL Standard for
absolute `http(s)` URLs (the only URLs the search collaborator supplies):
the part after the host up to any `?` or `#`, defaulting to `/`; any other
input stands for the `catch` branch and yields `/` as in the source. -/
def urlPathname (url : String) : String :=
  let rest :=
    if startsWithL "https://".data url.data then url.data.drop 8
    else if startsWithL "http://".data url.data then url.data.drop 7
    else []
  let path := (rest.dropWhile (· ≠ '/')).takeWhile fun c => c ≠ '?' && c ≠ '#'
  if path = [] then "/" else ⟨path⟩

/-- The non-empty `/`-separated segments of a pathname:
`p.split('/').filter(s => s)`. -/
def pathSegments (p : String) : List String :=
  (jsSplitChar '/' p).filter (· ≠ "")

/-- The pathnames of the result URLs. -/
def urlPaths (urls : List String) : List String :=
  urls.map urlPathname

/-- All non-empty path segments of all result URLs, in scan order. -/
def allSegments (urls : List String) : List String :=
  (urlPaths urls).flatMap pathSegments

/-- Whether a character is an ASCII letter (the `[a-z]` class with the `i`
flag). -/
def isAsciiLetter (c : Char) : Bool :=
  ('a' ≤ c && c ≤ 'z') || ('A' ≤ c && c ≤ 'Z')

/-- The trailing extension of a pathname: the regex `\.([a-z]+)$/i` match
group, or `none` used as the literal key `"none"`. -/
def extOf (p : String) : String :=
  let rev := p.data.reverse
  let letters := rev.takeWhile isAsciiLetter
  if letters ≠ [] && (rev.drop letters.length).headD ' ' = '.' then
    ⟨letters.reverse⟩
  else "none"

/-- The extension keys of the result URLs in scan order. -/
def urlExtensions (urls : List String) : List String :=
  (urlPaths urls).map extOf

/-- URL pattern aggregate.  `avgPathDepth` is `none` when the source's
`0/0` produces `NaN` (empty input). -/
structure UrlPatterns where
  commonPaths : List String
  avgPathDepth : Option ℚ
  commonExtensions : List String
deriving DecidableEq, Repr

/-- `analyzeUrls(urls)`: mean path depth rounded to one decimal (`NaN`,
i.e. `none`, when `urls` is empty); the path segments whose count is at
least `urls.length / 3` (rational threshold: `3 * count ≥ length`), in
object enumeration order, capped at 5; the distinct extension keys in
object enumeration order, capped at 3. -/
def analyzeUrls (urls : List String) : UrlPatterns :=
  let paths := urlPaths urls
  let depths := paths.map fun p => (pathSegments p).length
  let avgPathDepth : Option ℚ :=
    if urls.isEmpty then none
    else some ((jsRoundDiv (10 * depths.sum) urls.length : ℚ) / 10)
  let segmentCounts := buildCounts (allSegments urls)
  let commonPaths :=
    (((jsObjectEntries segmentCounts).filter fun p => 3 * p.2 ≥ urls.length).map
      (·.1)).take 5
  let extensionCounts := buildCounts (urlExtensions urls)
  { commonPaths := commonPaths, avgPathDepth := avgPathDepth
    commonExtensions := ((jsObjectEntries extensionCounts).map (·.1)).take 3 }

/-- Title pattern aggregate.  `avgLength` is `none` when the source's `0/0`
produces `NaN` (empty input). -/
structure TitlePatterns where
  commonWords : List String
  avgLength : Option Nat
  commonFormats : List String
deriving DecidableEq, Repr

/-- The stop-word set of `analyzeTitles`. -/
def stopWords : List String :=
  ["the", "a", "an", "and", "or", "but", "in", "on", "at", "to", "for",
   "of", "with", "by", "from", "is", "are", "was", "were"]

/-- `analyzeTitles(titles)`: count the lower-cased whitespace-split words
of length above 2 that are not stop words, rank them by descending
frequency (stable) and keep 10; mean character length rounded to the
nearest integer (`NaN`, i.e. `none`, on empty input); and the fixed format
probes in probe order. -/
def analyzeTitles (titles : List String) : TitlePatterns :=
  let allWords := wordsOf (lowerStr (joinWith " " titles))
  let counted := allWords.filter fun w => w.length > 2 && !stopWords.contains w
  let wordCounts := buildCounts counted
  let commonWords :=
    ((sortByCountDesc (jsObjectEntries wordCounts)).take 10).map (·.1)
  let avgLength : Option Nat :=
    if titles.isEmpty then none
    else some (jsRoundDiv (titles.map (·.length)).sum titles.length)
  let formats : List String :=
    (if titles.any fun t => jsIncludes t "How to" then ["How to..."] else []) ++
    (if titles.any fun t => jsIncludes t "Best" then ["Best X..."] else []) ++
    (if titles.any fun t => jsIncludes t "Guide" then ["Ultimate/Complete Guide"] else []) ++
    (if titles.any fun t => t.data.any Char.isDigit then ["Numbered lists (X Ways/Tips)"] else []) ++
    (if titles.any fun t => jsIncludes t "?" then ["Questions"] else [])
  { commonWords := commonWords, avgLength := avgLength, commonFormats := formats }

/-- `findCommonHeadings(allHeadings)`: count lower-cased trimmed headings
per level across all documents and keep the top 5 `h1` and top 10
`h2`/`h3` by descending frequency, ties in enumeration order. -/
def findCommonHeadings (allHeadings : List HeadingStructure) : HeadingStructure :=
  let getTop := fun (l : List String) (limit : Nat) =>
    ((sortByCountDesc (jsObjectEntries
      (buildCounts (l.map fun h => trimStr (lowerStr h))))).take limit).map (·.1)
  { h1 := getTop (allHeadings.flatMap (·.h1)) 5
    h2 := getTop (allHeadings.flatMap (·.h2)) 10
    h3 := getTop (allHeadings.flatMap (·.h3)) 10 }

/-- Content word-count aggregate (all metrics are integral; `Int` makes the
non-negativity claims meaningful). -/
structure ContentMetrics where
  avgWordCount : Int
  minWordCount : Int
  maxWordCount : Int
deriving DecidableEq, Repr

/-- The word count of a crawled document's content:
`content.split(/\s+/).filter(w => w.length > 0).length`. -/
def wordCountOf (content : String) : Nat :=
  (wordsOf content).length

/-- The guarded metrics computation shared by both analyzer copies: zeros
for an empty word-count list, otherwise rounded mean, minimum and maximum
(`Math.min(...wordCounts)` / `Math.max(...wordCounts)`). -/
def contentMetricsOf : List Nat → ContentMetrics
  | [] => { avgWordCount := 0, minWordCount := 0, maxWordCount := 0 }
  | w :: ws =>
    { avgWordCount := (jsRoundDiv (w :: ws).sum (w :: ws).length : Nat)
      minWordCount := (ws.foldl Nat.min w : Nat)
      maxWordCount := (ws.foldl Nat.max w : Nat) }

/-! ### Standalone `SerpAnalyzerTool.call`
(`src/tools/SerpAnalyzerTool/SerpAnalyzerTool.tsx`): pure analysis over a
caller-supplied result list and optional crawled content. -/

/-- One entry of the optional `crawled_content` input. -/
structure CrawledDoc where
  url : String
  content : String
  success : Bool
deriving DecidableEq, Repr

/-- The analysis record returned by the standalone analyzer. -/
structure SerpAnalysis where
  keyword : String
  searchIntent : SearchIntent
  commonHeadings : HeadingStructure
  urlPatterns : UrlPatterns
  contentMetrics : ContentMetrics
  titlePatterns : TitlePatterns
deriving DecidableEq, Repr

/-- The crawled documents the loop actually processes: those with
`crawled.success && crawled.content` (a successful crawl with non-empty
content). -/
def deepAnalyzedDocs (docs : List CrawledDoc) : List CrawledDoc :=
  docs.filter fun d => d.success && d.content ≠ ""

/-- `SerpAnalyzerTool.call` of the standalone copy: intent, URL and title
analysis over the result list; headings and word counts collected from the
successfully crawled documents; `commonHeadings` and `contentMetrics` stay
at their zero defaults when no document contributes. -/
def serpAnalyzerCall (keyword : String) (searchResults : List SearchResult)
    (crawledContent : Option (List CrawledDoc)) : SerpAnalysis :=
  let searchIntent := analyzeSearchIntent searchResults keyword
  let urlPatterns := analyzeUrls (searchResults.map (·.link))
  let titlePatterns := analyzeTitles (searchResults.map (·.title))
  let docs := deepAnalyzedDocs (crawledContent.getD [])
  let allHeadings := docs.map fun d => extractHeadings d.content
  let wordCounts := docs.map fun d => wordCountOf d.content
  let commonHeadings :=
    if allHeadings.length > 0 then findCommonHeadings allHeadings
    else { h1 := [], h2 := [], h3 := [] }
  { keyword := keyword, searchIntent := searchIntent
    commonHeadings := commonHeadings, urlPatterns := urlPatterns
    contentMetrics := contentMetricsOf wordCounts, titlePatterns := titlePatterns }

/-! ### Pipeline orchestrator
(`SerpAnalyzerTool.call` of `ContentOutlineGeneratorTool.tsx`): search,
then per-document crawl and extraction for the first five results, then
aggregation.  The search collaborator is modelled as an `Except` (its
`ConfigurationError` / `CancelledError` propagate through the orchestrator's
outer `catch`); document `i`'s network and cancellation schedules are
`nets i` and `aborteds i`, consumed by the crawler exactly as in
`fetchWithRetry`. -/

/-- One entry of the orchestrator's `topResults`. -/
structure SerpResult where
  position : Nat
  title : String
  url : String
  snippet : Option String
  headings : Option HeadingStructure
  wordCount : Option Nat
  contentPreview : Option String
deriving DecidableEq, Repr

/-- The full analysis record assembled by the orchestrator. -/
structure SerpAnalysisFull where
  keyword : String
  topResults : List SerpResult
  searchIntent : SearchIntent
  peopleAlsoAsk : List String
  commonHeadings : HeadingStructure
  urlPatterns : UrlPatterns
  contentMetrics : ContentMetrics
  titlePatterns : TitlePatterns
deriving DecidableEq, Repr

/-- The orchestrator's per-document loop from index `i`: for each result,
build the `SerpResult` entry; for the first five results (when content
analysis is on) run the crawler with `max_retries := 1`, and on a
successful crawl record extracted headings, word count and a 200-character
preview.  A crawl that throws (`none`, the cancellation rethrow) is caught
by the loop's own `catch` and skipped.  Returns the `topResults` entries,
the collected heading structures and the collected word counts, in
document order. -/
def perDocGo (analyzeContent : Bool) (nets : Nat → Nat → NetResp)
    (aborteds : Nat → Nat → Bool) :
    List SearchResult → Nat → List SerpResult × List HeadingStructure × List Nat
  | [], _ => ([], [], [])
  | r :: rest, i =>
    let (entry, hs, ws) :
        SerpResult × List HeadingStructure × List Nat :=
      let base : SerpResult :=
        { position := if r.position ≠ 0 then r.position else i + 1
          title := r.title, url := r.link, snippet := r.snippet
          headings := none, wordCount := none, contentPreview := none }
      if analyzeContent ∧ i < 5 then
        match contentCrawlerCall (nets i) (aborteds i) 1 r.link true with
        | some cr =>
          if cr.success then
            let headings := extractHeadings cr.content
            let wordCount := wordCountOf cr.content
            ({ base with
                headings := some headings
                wordCount := some wordCount
                contentPreview := some (cr.content.take 200) },
             [headings], [wordCount])
          else (base, [], [])
        | none => (base, [], [])
      else (base, [], [])
    let (es, hss, wss) := perDocGo analyzeContent nets aborteds rest (i + 1)
    (entry :: es, hs ++ hss, ws ++ wss)

/-- `SerpAnalyzerTool.call` of the orchestrator copy.  A failed search
(configuration error or cancellation) propagates; an empty result list is
fatal (`'No search results found'`); otherwise the loop's signals are
aggregated into a report that is always produced. -/
def serpOrchestrate (keyword : String) (analyzeContent : Bool)
    (searchOutcome : Except String (List SearchResult))
    (nets : Nat → Nat → NetResp) (aborteds : Nat → Nat → Bool) :
    Except String SerpAnalysisFull :=
  match searchOutcome with
  | .error e => .error e
  | .ok searchResults =>
    if searchResults.isEmpty then .error "No search results found"
    else
      let signals := perDocGo analyzeContent nets aborteds searchResults 0
      .ok { keyword := keyword, topResults := signals.1
            searchIntent := analyzeSearchIntent searchResults keyword
            peopleAlsoAsk := []
            commonHeadings := findCommonHeadings signals.2.1
            urlPatterns := analyzeUrls (searchResults.map (·.link))
            contentMetrics := contentMetricsOf signals.2.2
            titlePatterns := analyzeTitles (searchResults.map (·.title)) }

/-! ### Helper lemmas -/

/-- `fetchGo` on a network that always answers with the same non-2xx,
non-4xx status: every iteration issues one call, records the HTTP error
and continues; the loop exits with the post-loop throw of the last
recorded error. -/
theorem fetchGo_persistent_err (status : Nat) (st body : String)
    (h2 : ¬(200 ≤ status ∧ status < 300)) (h4 : ¬(400 ≤ status ∧ status < 500))
    (maxRetries : Nat) :
    ∀ fuel attempt lastErr calls,
      fetchGo (fun _ => .resp status st body) (fun _ => false) maxRetries
          (fuel + 1) attempt lastErr calls =
        (.failure (.http status st), calls + (fuel + 1)) := by
  intro fuel
  induction fuel with
  | zero =>
    intro attempt lastErr calls
    simp [fetchGo, h2, h4]
  | succ n ih =>
    intro attempt lastErr calls
    rw [fetchGo.eq_def]
    simp only [h2, h4, if_false, Bool.false_eq_true]
    rw [ih]
    simp only [Prod.mk.injEq, true_and]
    omega

/-- An aborted signal at the start of an attempt: `fetch` rejects without a
network call and the `catch` rethrows the cancellation. -/
theorem fetchGo_aborted (net : Nat → NetResp) (aborted : Nat → Bool)
    (maxRetries fuel attempt : Nat) (lastErr : Option FetchErr) (calls : Nat)
    (h : aborted attempt = true) :
    fetchGo net aborted maxRetries (fuel + 1) attempt lastErr calls =
      (.cancelled, calls) := by
  simp [fetchGo, h]

/-- Lower bound for the exact `Math.round(sum / n)`. -/
theorem le_jsRoundDiv (sum n lo : Nat) (hn : 0 < n) (h : n * lo ≤ sum) :
    lo ≤ jsRoundDiv sum n := by
  unfold jsRoundDiv
  rw [Nat.le_div_iff_mul_le (by omega : 0 < 2 * n)]
  have e : lo * (2 * n) = 2 * (n * lo) := by ring
  omega

/-- Upper bound for the exact `Math.round(sum / n)`. -/
theorem jsRoundDiv_le (sum n hi : Nat) (hn : 0 < n) (h : sum ≤ n * hi) :
    jsRoundDiv sum n ≤ hi := by
  unfold jsRoundDiv
  have e : (hi + 1) * (2 * n) = 2 * (n * hi) + 2 * n := by ring
  have h2 : 2 * sum + n < (hi + 1) * (2 * n) := by omega
  have := (Nat.div_lt_iff_lt_mul (show 0 < 2 * n by omega)).mpr h2
  omega

/-- The fold computing `Math.min(...ws)` bounds every element from below. -/
theorem foldl_min_le (ws : List Nat) : ∀ w, ws.foldl Nat.min w ≤ w ∧
    ∀ x ∈ ws, ws.foldl Nat.min w ≤ x := by
  induction ws with
  | nil => intro w; simp
  | cons a rest ih =>
    intro w
    obtain ⟨h1, h2⟩ := ih (Nat.min w a)
    refine ⟨le_trans h1 (Nat.min_le_left _ _), ?_⟩
    intro x hx
    rcases List.mem_cons.mp hx with rfl | hx
    · exact le_trans h1 (Nat.min_le_right _ _)
    · exact h2 x hx

/-- The fold computing `Math.max(...ws)` bounds every element from above. -/
theorem le_foldl_max (ws : List Nat) : ∀ w, w ≤ ws.foldl Nat.max w ∧
    ∀ x ∈ ws, x ≤ ws.foldl Nat.max w := by
  induction ws with
  | nil => intro w; simp
  | cons a rest ih =>
    intro w
    obtain ⟨h1, h2⟩ := ih (Nat.max w a)
    refine ⟨le_trans (Nat.le_max_left _ _) h1, ?_⟩
    intro x hx
    rcases List.mem_cons.mp hx with rfl | hx
    · exact le_trans (Nat.le_max_right _ _) h1
    · exact h2 x hx

/-- A lower bound on every element bounds the sum from below. -/
theorem length_mul_le_sum (l : List Nat) (lo : Nat) (h : ∀ x ∈ l, lo ≤ x) :
    l.length * lo ≤ l.sum := by
  induction l with
  | nil => simp
  | cons a rest ih =>
    have := h a (List.mem_cons_self a rest)
    have := ih fun x hx => h x (List.mem_cons_of_mem a hx)
    have e : (rest.length + 1) * lo = rest.length * lo + lo := by ring
    simp only [List.length_cons, List.sum_cons]
    omega

/-- An upper bound on every element bounds the sum from above. -/
theorem sum_le_length_mul (l : List Nat) (hi : Nat) (h : ∀ x ∈ l, x ≤ hi) :
    l.sum ≤ l.length * hi := by
  induction l with
  | nil => simp
  | cons a rest ih =>
    have := h a (List.mem_cons_self a rest)
    have := ih fun x hx => h x (List.mem_cons_of_mem a hx)
    have e : (rest.length + 1) * hi = rest.length * hi + hi := by ring
    simp only [List.length_cons, List.sum_cons]
    omega

/-- On a non-empty word-count list the rounded mean lies between the
minimum and the maximum. -/
theorem contentMetricsOf_bounds (w : Nat) (ws : List Nat) :
    (contentMetricsOf (w :: ws)).minWordCount ≤ (contentMetricsOf (w :: ws)).avgWordCount ∧
    (contentMetricsOf (w :: ws)).avgWordCount ≤ (contentMetricsOf (w :: ws)).maxWordCount := by
  unfold contentMetricsOf
  obtain ⟨hminw, hmin⟩ := foldl_min_le ws w
  obtain ⟨hmaxw, hmax⟩ := le_foldl_max ws w
  have hlo : ∀ x ∈ w :: ws, ws.foldl Nat.min w ≤ x := by
    intro x hx
    rcases List.mem_cons.mp hx with rfl | hx
    · exact hminw
    · exact hmin x hx
  have hhi : ∀ x ∈ w :: ws, x ≤ ws.foldl Nat.max w := by
    intro x hx
    rcases List.mem_cons.mp hx with rfl | hx
    · exact hmaxw
    · exact hmax x hx
  constructor
  · simp only [Nat.cast_le]
    exact le_jsRoundDiv _ _ _ (by simp) (length_mul_le_sum _ _ hlo)
  · simp only [Nat.cast_le]
    exact jsRoundDiv_le _ _ _ (by simp) (sum_le_length_mul _ _ hhi)

/-- If no document's fetch succeeds, the per-document loop collects no
word counts. -/
theorem perDocGo_noSuccess (ac : Bool) (nets : Nat → Nat → NetResp)
    (aborteds : Nat → Nat → Bool)
    (h : ∀ i html status,
      (fetchWithRetry (nets i) (aborteds i) 1).1 ≠ .success html status) :
    ∀ rs i, (perDocGo ac nets aborteds rs i).2.2 = [] := by
  intro rs
  induction rs with
  | nil => intro i; rfl
  | cons r rest ih =>
    intro i
    by_cases hcond : ac = true ∧ i < 5
    · obtain ⟨hac, hi5⟩ := hcond
      subst hac
      cases hf : (fetchWithRetry (nets i) (aborteds i) 1).1 with
      | success html status => exact absurd hf (h i html status)
      | cancelled => simp [perDocGo, contentCrawlerCall, hf, hi5, ih]
      | failure e => simp [perDocGo, contentCrawlerCall, hf, hi5, ih]
    · simp [perDocGo, hcond, ih]

/-- Bumping an absent key appends a fresh singleton count. -/
theorem bumpCount_of_not_mem (s : String) :
    ∀ acc : List (String × Nat), s ∉ acc.map Prod.fst →
      bumpCount s acc = acc ++ [(s, 1)] := by
  intro acc
  induction acc with
  | nil => intro _; rfl
  | cons a rest ih =>
    intro h
    have hne : a.1 ≠ s := by
      intro he
      exact h (by simp [he.symm])
    obtain ⟨a1, a2⟩ := a
    simp only [bumpCount, if_neg hne]
    rw [ih fun hm => h (by simp [hm])]
    simp

/-- The keys after a bump: unchanged when the key was present, the key
appended when it was absent. -/
theorem keys_bumpCount (s : String) :
    ∀ acc : List (String × Nat),
      (bumpCount s acc).map Prod.fst =
        if s ∈ acc.map Prod.fst then acc.map Prod.fst
        else acc.map Prod.fst ++ [s] := by
  intro acc
  induction acc with
  | nil => rfl
  | cons a rest ih =>
    obtain ⟨a1, a2⟩ := a
    by_cases he : a1 = s
    · subst he
      simp [bumpCount]
    · simp only [bumpCount, if_neg he, List.map_cons, ih]
      by_cases hm : s ∈ rest.map Prod.fst <;>
        simp [hm, he, Ne.symm he]

/-- Bumping preserves key distinctness. -/
theorem nodup_keys_bumpCount (s : String) (acc : List (String × Nat))
    (h : (acc.map Prod.fst).Nodup) : ((bumpCount s acc).map Prod.fst).Nodup := by
  rw [keys_bumpCount]
  by_cases hm : s ∈ acc.map Prod.fst
  · rwa [if_pos hm]
  · rw [if_neg hm]
    refine List.Nodup.append h (List.nodup_singleton s) ?_
    intro a ha hb
    rw [List.mem_singleton] at hb
    subst hb
    exact hm ha

/-- Membership in a bump of a present key, under distinct keys: entries of
other keys are untouched and the bumped key's count grew by one. -/
theorem mem_bumpCount_of_mem (s : String) :
    ∀ (acc : List (String × Nat)) (c0 : Nat), (acc.map Prod.fst).Nodup →
      (s, c0) ∈ acc → ∀ t c,
        ((t, c) ∈ bumpCount s acc ↔ ((t, c) ∈ acc ∧ t ≠ s) ∨ (t = s ∧ c = c0 + 1)) := by
  intro acc
  induction acc with
  | nil => intro c0 _ hm; exact absurd hm (by simp)
  | cons a rest ih =>
    intro c0 hnd hm t c
    obtain ⟨a1, a2⟩ := a
    rw [List.map_cons, List.nodup_cons] at hnd
    obtain ⟨hka, hndr⟩ := hnd
    by_cases he : a1 = s
    · have hc0 : c0 = a2 := by
        rcases List.mem_cons.mp hm with h | h
        · exact congrArg Prod.snd h
        · exact absurd (List.mem_map.mpr ⟨(s, c0), h, rfl⟩) (he ▸ hka)
      subst hc0
      simp only [bumpCount, if_pos he]
      have hsn : (a1, c) ∉ rest := fun hmem =>
        hka (List.mem_map.mpr ⟨(a1, c), hmem, rfl⟩)
      constructor
      · intro hx
        rcases List.mem_cons.mp hx with h | h
        · exact Or.inr ⟨(congrArg Prod.fst h).trans he, congrArg Prod.snd h⟩
        · by_cases ht : t = a1
          · subst ht; exact absurd h hsn
          · exact Or.inl ⟨List.mem_cons_of_mem _ h, fun hts => ht (hts.trans he.symm)⟩
      · intro hx
        rcases hx with ⟨hmem, hne⟩ | ⟨rfl, rfl⟩
        · rcases List.mem_cons.mp hmem with h | h
          · exact absurd ((congrArg Prod.fst h).trans he) hne
          · exact List.mem_cons_of_mem _ h
        · rw [← he]
          exact List.mem_cons_self _ _
    · have hmr : (s, c0) ∈ rest := by
        rcases List.mem_cons.mp hm with h | h
        · exact absurd (congrArg Prod.fst h).symm he
        · exact h
      simp only [bumpCount, if_neg he]
      constructor
      · intro hx
        rcases List.mem_cons.mp hx with h | h
        · have h1 := congrArg Prod.fst h

          have h2 := congrArg Prod.snd h
          simp only at h1 h2
          subst h1; subst h2
          exact Or.inl ⟨List.mem_cons_self _ _, he⟩
        · rcases (ih c0 hndr hmr t c).mp h with ⟨hmem, hne⟩ | hts
          · exact Or.inl ⟨List.mem_cons_of_mem _ hmem, hne⟩
          · exact Or.inr hts
      · intro hx
        rcases hx with ⟨hmem, hne⟩ | hts
        · rcases List.mem_cons.mp hmem with h | h
          · have h1 := congrArg Prod.fst h
            have h2 := congrArg Prod.snd h
            simp only at h1 h2
            subst h1; subst h2
            exact List.mem_cons_self _ _
          · exact List.mem_cons_of_mem _ ((ih c0 hndr hmr t c).mpr (Or.inl ⟨h, hne⟩))
        · exact List.mem_cons_of_mem _ ((ih c0 hndr hmr t c).mpr (Or.inr hts))

/-- The invariant of the counting fold: the accumulator is exactly the
frequency table of the processed prefix. -/
def CountsFor (acc : List (String × Nat)) (l : List String) : Prop :=
  (acc.map Prod.fst).Nodup ∧
    ∀ p : String × Nat, p ∈ acc ↔ (p.1 ∈ l ∧ p.2 = l.count p.1)

/-- Bumping a key extends the represented list by that element. -/
theorem countsFor_bump {acc : List (String × Nat)} {l : List String}
    (h : CountsFor acc l) (s : String) : CountsFor (bumpCount s acc) (l ++ [s]) := by
  obtain ⟨hnd, hmem⟩ := h
  refine ⟨nodup_keys_bumpCount s acc hnd, ?_⟩
  intro p
  obtain ⟨t, c⟩ := p
  by_cases hk : s ∈ acc.map Prod.fst
  · obtain ⟨q, hq, hqs⟩ := List.mem_map.mp hk
    obtain ⟨q1, q2⟩ := q
    have hqs' : q1 = s := hqs
    have hq' : (s, q2) ∈ acc := hqs' ▸ hq
    obtain ⟨hsl, hsc⟩ := (hmem (s, q2)).mp hq'
    simp only at hsl hsc
    rw [mem_bumpCount_of_mem s acc q2 hnd hq' t c]
    by_cases hts : t = s
    · subst hts
      simp [hsc, List.count_append, hsl]
    · simp only [hts, and_true, ne_eq, and_false, or_false, false_and]
      rw [hmem (t, c)]
      simp [List.count_append, hts]
  · have hsl : s ∉ l := by
      intro hin
      exact hk (List.mem_map.mpr ⟨(s, l.count s), (hmem (s, l.count s)).mpr ⟨hin, rfl⟩, rfl⟩)
    rw [bumpCount_of_not_mem s acc hk]
    simp only [List.mem_append, List.mem_singleton, hmem (t, c)]
    by_cases hts : t = s
    · subst hts
      have : l.count t = 0 := List.count_eq_zero.mpr hsl
      simp [List.count_append, hsl, this, Prod.ext_iff]
    · simp [List.count_append, hts, hsl]

/-- The counting fold computes frequency tables. -/
theorem countsFor_buildCountsAux :
    ∀ (l : List String) (acc : List (String × Nat)) (l0 : List String),
      CountsFor acc l0 → CountsFor (buildCountsAux l acc) (l0 ++ l) := by
  intro l
  induction l with
  | nil => intro acc l0 h; simpa using h
  | cons s rest ih =>
    intro acc l0 h
    have := ih (bumpCount s acc) (l0 ++ [s]) (countsFor_bump h s)
    simpa [buildCountsAux] using this

/-- `buildCounts l` is exactly the frequency table of `l`. -/
theorem countsFor_buildCounts (l : List String) : CountsFor (buildCounts l) l := by
  have := countsFor_buildCountsAux l [] [] ⟨List.nodup_nil, by simp⟩
  simpa [buildCounts] using this

/-- Inserting into the key-sorted list is a permutation of consing. -/
theorem insertByKeyAsc_perm (a : String × Nat) :
    ∀ l : List (String × Nat), (insertByKeyAsc a l).Perm (a :: l) := by
  intro l
  induction l with
  | nil => exact List.Perm.refl _
  | cons b rest ih =>
    by_cases hc : a.1.toNat?.getD 0 < b.1.toNat?.getD 0
    · simp only [insertByKeyAsc, if_pos hc]
      exact List.Perm.refl _
    · simp only [insertByKeyAsc, if_neg hc]
      exact (ih.cons b).trans (List.Perm.swap a b rest)

/-- Sorting by key is a permutation. -/
theorem sortByKeyAsc_perm :
    ∀ l : List (String × Nat), (sortByKeyAsc l).Perm l := by
  intro l
  induction l with
  | nil => exact List.Perm.refl _
  | cons a rest ih =>
    exact (insertByKeyAsc_perm a (sortByKeyAsc rest)).trans (ih.cons a)

/-- `Object.entries` enumeration is a permutation of the insertion-ordered
table. -/
theorem jsObjectEntries_perm (l : List (String × Nat)) :
    (jsObjectEntries l).Perm l := by
  unfold jsObjectEntries
  exact ((sortByKeyAsc_perm _).append_right _).trans
    (List.filter_append_perm (fun p => isArrayIndexStr p.1) l)

/-! ### Claim theorems -/

/-- C1: the claim says a response with status in `[400, 500)` fails
permanently with exactly one fetch call for every `maxRetries` in `[0, 3]`.
The code violates it: the `throw lastError` meant to make 4xx permanent is
caught by the loop's own `catch`, which swallows it unless
`attempt === maxRetries`, so a persistent 404 with `maxRetries = 1` issues
two network calls before failing. -/
theorem fetch404_c1_code_eval :
    fetchWithRetry (fun _ => .resp 404 "Not Found" "") (fun _ => false) 1 =
      (.failure (.http 404 "Not Found"), 2) := by
  decide

/-- C2: the claim says the heading structures fed into the heading
aggregator are `extractHeadings` of the document's raw fetched markup.
The code violates it: the orchestrator passes the crawler's *cleaned text*
(`crawlResult.content`, with every tag stripped) to `extractHeadings`, so
the structure collected for a document whose raw markup is
`<h1>Title</h1><p>Some text</p>` is empty, while `extractHeadings` of the
raw markup yields the `h1` heading `Title`. -/
theorem orchestratorHeadings_c2_code_eval :
    (perDocGo true (fun _ _ => .resp 200 "OK" "<h1>Title</h1><p>Some text</p>")
        (fun _ _ => false) [⟨"t", "https://e.com/a", none, 1⟩] 0).2.1 =
      [{ h1 := [], h2 := [], h3 := [] }] ∧
    extractHeadings "<h1>Title</h1><p>Some text</p>" =
      { h1 := ["Title"], h2 := [], h3 := [] } ∧
    ({ h1 := [], h2 := [], h3 := [] } : HeadingStructure) ≠
      { h1 := ["Title"], h2 := [], h3 := [] } := by
  refine ⟨by decide, by decide, by decide⟩

/-- C3: for every `maxRetries` in `[0, 3]`, a persistent HTTP 500 response
makes exactly `maxRetries + 1` network calls and fails with the last
observed error (`HTTP 500`). -/
theorem persistent500_c3 (maxRetries : Nat) (_hm : maxRetries ≤ 3) (st body : String) :
    fetchWithRetry (fun _ => .resp 500 st body) (fun _ => false) maxRetries =
      (.failure (.http 500 st), maxRetries + 1) := by
  unfold fetchWithRetry
  rw [fetchGo_persistent_err 500 st body (by omega) (by omega) maxRetries maxRetries 0 none 0]
  simp

/-- Witness for C3 at `maxRetries = 2`. -/
theorem persistent500_c3_witness :
    fetchWithRetry (fun _ => .resp 500 "Internal Server Error" "") (fun _ => false) 2 =
      (.failure (.http 500 "Internal Server Error"), 3) :=
  persistent500_c3 2 (by omega) "Internal Server Error" ""

/-- C8: a cancellation signal observed before any attempt makes the fetch
fail with the distinct cancelled outcome and zero network calls; more
generally, at whatever attempt the signal is first observed (covering the
window of the preceding inter-attempt delay), the operation immediately
fails cancelled and issues no further network call — an observed
cancellation is never retried. -/
theorem cancellation_c8 :
    (∀ (net : Nat → NetResp) (aborted : Nat → Bool) (maxRetries : Nat),
      aborted 0 = true →
        fetchWithRetry net aborted maxRetries = (.cancelled, 0)) ∧
    (∀ (net : Nat → NetResp) (aborted : Nat → Bool)
        (maxRetries fuel attempt : Nat) (lastErr : Option FetchErr) (calls : Nat),
      aborted attempt = true →
        fetchGo net aborted maxRetries (fuel + 1) attempt lastErr calls =
          (.cancelled, calls)) := by
  constructor
  · intro net aborted maxRetries h
    unfold fetchWithRetry
    exact fetchGo_aborted net aborted maxRetries maxRetries 0 none 0 h
  · intro net aborted maxRetries fuel attempt lastErr calls h
    exact fetchGo_aborted net aborted maxRetries fuel attempt lastErr calls h

/-- Witness for C8: a signal aborted from the start cancels with zero
calls even though the network would keep answering 500. -/
theorem cancellation_c8_witness :
    fetchWithRetry (fun _ => .resp 500 "x" "") (fun _ => true) 2 = (.cancelled, 0) :=
  cancellation_c8.1 (fun _ => .resp 500 "x" "") (fun _ => true) 2 rfl

/-- C9: the claim says every aggregator degrades to empty collections and
*zero* numeric defaults on empty input.  The collections are indeed empty
and nothing throws, but the code computes `0 / 0` for the two means, so
`avgPathDepth` and `avgLength` are `NaN` (modelled `none`), not the zero
default the claim requires. -/
theorem emptyAggregates_c9_counterexample :
    (analyzeUrls []).avgPathDepth = none ∧
    (analyzeTitles []).avgLength = none ∧
    ¬((analyzeUrls []).avgPathDepth = some 0) := by
  refine ⟨by decide, by decide, by decide⟩

/-- C9 amended: on empty input no aggregator throws and all collections
are empty; the heading aggregate and the content metrics are at their
empty/zero defaults, but `avgPathDepth` and `avgLength` are `NaN`
(modelled `none`) rather than zero. -/
theorem emptyAggregates_c9_amended :
    findCommonHeadings [] = { h1 := [], h2 := [], h3 := [] } ∧
    analyzeTitles [] = { commonWords := [], avgLength := none, commonFormats := [] } ∧
    analyzeUrls [] = { commonPaths := [], avgPathDepth := none, commonExtensions := [] } ∧
    contentMetricsOf [] = { avgWordCount := 0, minWordCount := 0, maxWordCount := 0 } := by
  refine ⟨by decide, by decide, by decide, by decide⟩

/-- C10: every `CrawlResult` the crawler's `call` yields, success or
failure, has `contentLength` equal to the character length of `content`. -/
theorem contentLength_c10 (net : Nat → NetResp) (aborted : Nat → Bool)
    (maxRetries : Nat) (url : String) (tags : Bool) (r : CrawlResult)
    (h : contentCrawlerCall net aborted maxRetries url tags = some r) :
    r.contentLength = r.content.length := by
  unfold contentCrawlerCall at h
  cases hf : (fetchWithRetry net aborted maxRetries).1 <;> rw [hf] at h
  · cases h; rfl
  · cases h
  · cases h; rfl

/-- Witness for C10 on a failed crawl (persistent 404, `maxRetries = 0`). -/
theorem contentLength_c10_witness :
    ∃ r, contentCrawlerCall (fun _ => .resp 404 "NF" "") (fun _ => false) 0 "u" true =
        some r ∧ r.contentLength = r.content.length :=
  ⟨_, rfl, contentLength_c10 (fun _ => .resp 404 "NF" "") (fun _ => false) 0 "u" true _ rfl⟩

/-- C4: the orchestrator fails exactly on a failed search (configuration
error or cancellation, propagated unchanged) or an empty result list; for
every non-empty result list a report is produced no matter what the
per-document fetches do — their failures are caught inside the loop — and
the content metrics are zeroed when no document's fetch succeeded. -/
theorem orchestrator_c4 (keyword : String) (analyzeContent : Bool)
    (searchOutcome : Except String (List SearchResult))
    (nets : Nat → Nat → NetResp) (aborteds : Nat → Nat → Bool) :
    (∀ e, searchOutcome = .error e →
      serpOrchestrate keyword analyzeContent searchOutcome nets aborteds = .error e) ∧
    (searchOutcome = .ok [] →
      serpOrchestrate keyword analyzeContent searchOutcome nets aborteds =
        .error "No search results found") ∧
    (∀ rs, searchOutcome = .ok rs → rs ≠ [] →
      ∃ a, serpOrchestrate keyword analyzeContent searchOutcome nets aborteds = .ok a ∧
        ((∀ i html status,
            (fetchWithRetry (nets i) (aborteds i) 1).1 ≠ .success html status) →
          a.contentMetrics =
            { avgWordCount := 0, minWordCount := 0, maxWordCount := 0 })) := by
  refine ⟨?_, ?_, ?_⟩
  · intro e he; rw [he]; rfl
  · intro he; rw [he]; rfl
  · intro rs hrs hne
    rw [hrs]
    unfold serpOrchestrate
    dsimp only
    rw [if_neg (by simpa using hne)]
    refine ⟨_, rfl, ?_⟩
    intro hnos
    have hz := perDocGo_noSuccess analyzeContent nets aborteds hnos rs 0
    simp [hz, contentMetricsOf]

/-- Witness for C4: one result whose fetch persistently 404s still yields
a report, with zeroed content metrics. -/
theorem orchestrator_c4_witness :
    ∃ a, serpOrchestrate "k" true (.ok [⟨"t", "https://e.com/a", none, 1⟩])
        (fun _ _ => .resp 404 "NF" "") (fun _ _ => false) = .ok a ∧
      a.contentMetrics = { avgWordCount := 0, minWordCount := 0, maxWordCount := 0 } := by
  obtain ⟨a, ha, hz⟩ := (orchestrator_c4 "k" true (.ok [⟨"t", "https://e.com/a", none, 1⟩])
      (fun _ _ => .resp 404 "NF" "") (fun _ _ => false)).2.2 _ rfl (by simp)
  refine ⟨a, ha, hz ?_⟩
  intro i html status hcontra
  rw [show (fetchWithRetry (fun _ => NetResp.resp 404 "NF" "") (fun _ => false) 1).1 =
    FetchResult.failure (.http 404 "NF") from rfl] at hcontra
  exact FetchResult.noConfusion hcontra

/-- C5: over a non-empty result list, all three content metrics are
non-negative; whenever at least one document was successfully deep-analyzed
(`success` and non-empty content, the loop's guard), the minimum is at most
the rounded mean and the rounded mean at most the maximum; and all three
are exactly zero when no document succeeded (the division is guarded, so no
division by zero arises). -/
theorem contentMetrics_c5 (keyword : String) (searchResults : List SearchResult)
    (crawledContent : Option (List CrawledDoc)) (_hne : searchResults ≠ []) :
    (0 ≤ (serpAnalyzerCall keyword searchResults crawledContent).contentMetrics.avgWordCount ∧
     0 ≤ (serpAnalyzerCall keyword searchResults crawledContent).contentMetrics.minWordCount ∧
     0 ≤ (serpAnalyzerCall keyword searchResults crawledContent).contentMetrics.maxWordCount) ∧
    (deepAnalyzedDocs (crawledContent.getD []) ≠ [] →
      (serpAnalyzerCall keyword searchResults crawledContent).contentMetrics.minWordCount ≤
        (serpAnalyzerCall keyword searchResults crawledContent).contentMetrics.avgWordCount ∧
      (serpAnalyzerCall keyword searchResults crawledContent).contentMetrics.avgWordCount ≤
        (serpAnalyzerCall keyword searchResults crawledContent).contentMetrics.maxWordCount) ∧
    ((∀ d ∈ crawledContent.getD [], d.success = false) →
      (serpAnalyzerCall keyword searchResults crawledContent).contentMetrics =
        { avgWordCount := 0, minWordCount := 0, maxWordCount := 0 }) := by
  have hm : (serpAnalyzerCall keyword searchResults crawledContent).contentMetrics =
      contentMetricsOf ((deepAnalyzedDocs (crawledContent.getD [])).map
        fun d => wordCountOf d.content) := rfl
  refine ⟨?_, ?_, ?_⟩
  · rw [hm]
    cases (deepAnalyzedDocs (crawledContent.getD [])).map fun d => wordCountOf d.content with
    | nil => simp [contentMetricsOf]
    | cons w ws => unfold contentMetricsOf; refine ⟨?_, ?_, ?_⟩ <;> simp
  · intro hd
    rw [hm]
    obtain ⟨d, ds, hds⟩ : ∃ d ds, deepAnalyzedDocs (crawledContent.getD []) = d :: ds := by
      cases hE : deepAnalyzedDocs (crawledContent.getD []) with
      | nil => exact absurd hE hd
      | cons d ds => exact ⟨d, ds, rfl⟩
    rw [hds]
    simp only [List.map_cons]
    exact contentMetricsOf_bounds _ _
  · intro hall
    have hnil : deepAnalyzedDocs (crawledContent.getD []) = [] := by
      unfold deepAnalyzedDocs
      rw [List.filter_eq_nil_iff]
      intro d hdm
      simp [hall d hdm]
    rw [hm, hnil]
    rfl

/-- Witness for C5 on one successful crawled document with two words. -/
theorem contentMetrics_c5_witness :
    (serpAnalyzerCall "k" [⟨"t", "https://a.com/b", none, 1⟩]
        (some [⟨"u", "hello world", true⟩])).contentMetrics.minWordCount ≤
      (serpAnalyzerCall "k" [⟨"t", "https://a.com/b", none, 1⟩]
        (some [⟨"u", "hello world", true⟩])).contentMetrics.avgWordCount ∧
    (serpAnalyzerCall "k" [⟨"t", "https://a.com/b", none, 1⟩]
        (some [⟨"u", "hello world", true⟩])).contentMetrics.avgWordCount ≤
      (serpAnalyzerCall "k" [⟨"t", "https://a.com/b", none, 1⟩]
        (some [⟨"u", "hello world", true⟩])).contentMetrics.maxWordCount :=
  (contentMetrics_c5 "k" [⟨"t", "https://a.com/b", none, 1⟩]
    (some [⟨"u", "hello world", true⟩]) (by decide)).2.1 (by decide)

/-- C6: the claim says `commonPaths` and `commonExtensions` are ordered by
descending frequency.  The code never sorts them — they come out in object
key enumeration order (first occurrence, for these non-numeric keys).  At
this input the segment `x` (1 of 3 URLs) precedes `blog` (3 of 3), and the
extension `html` (1 occurrence) precedes `php` (2 occurrences): both lists
violate the claimed descending-frequency order. -/
theorem urlMiner_c6_counterexample :
    (analyzeUrls ["https://a.com/x/blog", "https://a.com/blog",
        "https://a.com/blog"]).commonPaths = ["x", "blog"] ∧
    (allSegments ["https://a.com/x/blog", "https://a.com/blog",
        "https://a.com/blog"]).count "x" = 1 ∧
    (allSegments ["https://a.com/x/blog", "https://a.com/blog",
        "https://a.com/blog"]).count "blog" = 3 ∧
    (analyzeUrls ["https://a.com/i.html", "https://a.com/j.php",
        "https://a.com/k.php"]).commonExtensions = ["html", "php"] ∧
    (urlExtensions ["https://a.com/i.html", "https://a.com/j.php",
        "https://a.com/k.php"]).count "html" = 1 ∧
    (urlExtensions ["https://a.com/i.html", "https://a.com/j.php",
        "https://a.com/k.php"]).count "php" = 2 := by
  refine ⟨by decide, by decide, by decide, by decide, by decide, by decide⟩

/-- C6 amended: `commonPaths` holds path segments whose occurrence count
is at least `N/3` (the `≥` comparison against the rational threshold),
capped at 5 — exactly the qualifying segments whenever at most 5 qualify —
and `commonExtensions` holds up to 3 distinct observed extension keys; both
lists are in object key enumeration order (first-seen order for non-numeric
keys), not ordered by descending frequency. -/
theorem urlMiner_c6_amended (urls : List String) :
    (analyzeUrls urls).commonPaths.length ≤ 5 ∧
    (∀ s ∈ (analyzeUrls urls).commonPaths,
      s ∈ allSegments urls ∧ 3 * (allSegments urls).count s ≥ urls.length) ∧
    (((buildCounts (allSegments urls)).filter
        fun p => 3 * p.2 ≥ urls.length).length ≤ 5 →
      ∀ s, s ∈ (analyzeUrls urls).commonPaths ↔
        s ∈ allSegments urls ∧ 3 * (allSegments urls).count s ≥ urls.length) ∧
    (analyzeUrls urls).commonExtensions.length ≤ 3 ∧
    (analyzeUrls urls).commonExtensions.Nodup ∧
    (∀ e ∈ (analyzeUrls urls).commonExtensions, e ∈ urlExtensions urls) := by
  obtain ⟨hsegNd, hsegMem⟩ := countsFor_buildCounts (allSegments urls)
  obtain ⟨hextNd, hextMem⟩ := countsFor_buildCounts (urlExtensions urls)
  have hpermSeg := jsObjectEntries_perm (buildCounts (allSegments urls))
  have hpermExt := jsObjectEntries_perm (buildCounts (urlExtensions urls))
  have hcp : (analyzeUrls urls).commonPaths =
      (((jsObjectEntries (buildCounts (allSegments urls))).filter
        fun p => 3 * p.2 ≥ urls.length).map Prod.fst).take 5 := rfl
  have hce : (analyzeUrls urls).commonExtensions =
      ((jsObjectEntries (buildCounts (urlExtensions urls))).map Prod.fst).take 3 := rfl
  have sound : ∀ s ∈ (analyzeUrls urls).commonPaths,
      s ∈ allSegments urls ∧ 3 * (allSegments urls).count s ≥ urls.length := by
    intro s hs
    rw [hcp] at hs
    have hs2 := List.mem_of_mem_take hs
    obtain ⟨p, hpf, hps⟩ := List.mem_map.mp hs2
    obtain ⟨hpe, hq⟩ := List.mem_filter.mp hpf
    have hpc := (hsegMem p).mp (hpermSeg.mem_iff.mp hpe)
    rw [← hps]
    refine ⟨hpc.1, ?_⟩
    rw [← hpc.2]
    exact of_decide_eq_true hq
  refine ⟨?_, sound, ?_, ?_, ?_, ?_⟩
  · rw [hcp, List.length_take]
    exact min_le_left _ _
  · intro hle s
    refine ⟨sound s, ?_⟩
    rintro ⟨hsm, hscnt⟩
    have hpmem : (s, (allSegments urls).count s) ∈
        buildCounts (allSegments urls) :=
      (hsegMem (s, (allSegments urls).count s)).mpr ⟨hsm, rfl⟩
    have hpe : (s, (allSegments urls).count s) ∈
        jsObjectEntries (buildCounts (allSegments urls)) :=
      hpermSeg.mem_iff.mpr hpmem
    have hpfil : (s, (allSegments urls).count s) ∈
        (jsObjectEntries (buildCounts (allSegments urls))).filter
          fun p => 3 * p.2 ≥ urls.length :=
      List.mem_filter.mpr ⟨hpe, decide_eq_true hscnt⟩
    have hlen : (((jsObjectEntries (buildCounts (allSegments urls))).filter
        fun p => 3 * p.2 ≥ urls.length).map Prod.fst).length ≤ 5 := by
      rw [List.length_map]
      rw [(hpermSeg.filter fun p => 3 * p.2 ≥ urls.length).length_eq]
      exact hle
    rw [hcp, List.take_of_length_le hlen]
    exact List.mem_map.mpr ⟨_, hpfil, rfl⟩
  · rw [hce, List.length_take]
    exact min_le_left _ _
  · rw [hce]
    refine List.Nodup.sublist (List.take_sublist _ _) ?_
    exact (hpermExt.map Prod.fst).nodup_iff.mpr hextNd
  · intro e he
    rw [hce] at he
    obtain ⟨p, hpe, hps⟩ := List.mem_map.mp (List.mem_of_mem_take he)
    rw [← hps]
    exact ((hextMem p).mp (hpermExt.mem_iff.mp hpe)).1

/-- Witness for C6: at the counterexample input, `blog` qualifies (3 of 3
URLs) and is reported. -/
theorem urlMiner_c6_amended_witness :
    "blog" ∈ allSegments ["https://a.com/x/blog", "https://a.com/blog",
        "https://a.com/blog"] ∧
    3 * (allSegments ["https://a.com/x/blog", "https://a.com/blog",
        "https://a.com/blog"]).count "blog" ≥ 3 :=
  (urlMiner_c6_amended ["https://a.com/x/blog", "https://a.com/blog",
    "https://a.com/blog"]).2.1 "blog" (by decide)

/-- C7: the search-intent classifier evaluates the vocabularies in the
order transactional → navigational → commercial → informational over the
concatenated lower-cased titles and snippets; the resulting type is the
*last* evaluated category whose trigger fires (hit count at least 2, with
navigational also fired by the raw keyword containing `.com` or `www`) and
defaults to informational; each firing category appends exactly its one
fixed indicator string, in evaluation order; and the confidence is
`min(90, 10 × (sum of all four hit counts))`. -/
theorem intentClassifier_c7 (results : List SearchResult) (keyword : String) :
    analyzeSearchIntent results keyword =
      { type :=
          if 2 ≤ hitCount informationalKeywords (combinedTextOf results) then .informational
          else if 2 ≤ hitCount commercialKeywords (combinedTextOf results) then .commercial
          else if (2 ≤ hitCount navigationalPatterns (combinedTextOf results) ∨
              jsIncludes keyword ".com" = true ∨ jsIncludes keyword "www" = true) then
            .navigational
          else if 2 ≤ hitCount transactionalKeywords (combinedTextOf results) then
            .transactional
          else .informational
        confidence :=
          min ((hitCount transactionalKeywords (combinedTextOf results) +
            hitCount navigationalPatterns (combinedTextOf results) +
            hitCount commercialKeywords (combinedTextOf results) +
            hitCount informationalKeywords (combinedTextOf results)) * 10) 90
        indicators :=
          (if 2 ≤ hitCount transactionalKeywords (combinedTextOf results) then
            ["Contains transactional keywords"] else []) ++
          (if (2 ≤ hitCount navigationalPatterns (combinedTextOf results) ∨
              jsIncludes keyword ".com" = true ∨ jsIncludes keyword "www" = true) then
            ["User searching for specific website"] else []) ++
          (if 2 ≤ hitCount commercialKeywords (combinedTextOf results) then
            ["User comparing products/services"] else []) ++
          (if 2 ≤ hitCount informationalKeywords (combinedTextOf results) then
            ["User seeking information"] else []) } := by
  unfold analyzeSearchIntent
  by_cases ht : 2 ≤ hitCount transactionalKeywords (combinedTextOf results) <;>
    by_cases hn : 2 ≤ hitCount navigationalPatterns (combinedTextOf results) ∨
      jsIncludes keyword ".com" = true ∨ jsIncludes keyword "www" = true <;>
    by_cases hc : 2 ≤ hitCount commercialKeywords (combinedTextOf results) <;>
    by_cases hi : 2 ≤ hitCount informationalKeywords (combinedTextOf results) <;>
    simp only [ge_iff_le, Bool.or_eq_true, decide_eq_true_eq, or_assoc, ht, hn, hc, hi,
      if_true, if_false] <;>
    simp_all [or_assoc]

end Kode
